import Mathlib

set_option maxHeartbeats 1000000

/-!
Verification of the HiveMindForge task-distribution core.

Shallow embedding conventions:
* Go `time.Time` / durations are modeled as integer seconds (`Int`); every
  operation that reads the clock takes the current instant `now` as an
  explicit argument, so "liveness is recomputed on every call" is reflected
  by the functions re-comparing `now` with the stored timestamps.
* Go `float64` fields are modeled as exact rationals (`ℚ`); `uint64`
  accumulation is modeled on `ℕ` with explicit reduction modulo `2 ^ 64`.
* Go maps are modeled as association lists; iteration order of a `range`
  loop is the list order, and map writes update the entry with the given
  key.  States reachable through the API keep their keys pairwise distinct,
  which is carried as an explicit `Nodup` hypothesis where a theorem
  needs it.
* RabbitMQ publication and logging are I/O effects with no influence on the
  store's state and are omitted from the state-transition model.
-/

namespace HiveMindForge

/-- Task lifecycle states, from `TaskStatus` in `groq_types.go`. -/
inductive TaskStatus where
  | pending
  | assigned
  | running
  | complete
  | failed
deriving DecidableEq

/-- Task priorities are Go `int` constants (`TaskPriority`). -/
abbrev TaskPriority := Int

def PriorityLow : TaskPriority := 1

def PriorityNormal : TaskPriority := 2

def PriorityHigh : TaskPriority := 3

/-- The `Task` record of `groq_types.go`; the opaque `Data` payload is kept
as an uninterpreted string. -/
structure Task where
  id : String
  type : String
  priority : TaskPriority
  status : TaskStatus
  data : String
  expectedOutput : String
  formatOutput : String
  createdAt : Int
  assignedTo : String
  completedAt : Option Int
deriving DecidableEq

/-- The `AgentHealth` record of `groq_types.go`. -/
structure AgentHealth where
  agentName : String
  lastHeartbeat : Int
  isProcessing : Bool
  currentTaskID : String
  processingTime : ℚ
  successRate : ℚ
  lastError : String
  lastErrorTime : Int
deriving DecidableEq

/-- The mutable state of `TaskManager` (`groq_types.go`): the task map and
the health registry.  The RabbitMQ connection/channel carry no dispatch
state. -/
structure TaskManager where
  tasks : List (String × Task)
  healthStatus : List (String × AgentHealth)
deriving DecidableEq

/-- Go map read `m[k]`: the value stored under key `k`, if any. -/
def lookup {α : Type} (m : List (String × α)) (k : String) : Option α :=
  (m.find? (fun e => e.1 = k)).map (fun e => e.2)

/-- Go map write `m[k] = v`: replace the entry under `k`, or add one. -/
def mapInsert {α : Type} (m : List (String × α)) (k : String) (v : α) :
    List (String × α) :=
  if m.any (fun e => e.1 = k) then m.map (fun e => if e.1 = k then (k, v) else e)
  else m ++ [(k, v)]

/-- The 30-second heartbeat staleness bound hard-coded in `GetNextTask`. -/
def livenessWindow : Int := 30

/-- `TaskManager.AddTask`: stamp `createdAt`, force `status = Pending`,
store under the task's ID (the published task-created event is I/O). -/
def TaskManager.AddTask (tm : TaskManager) (now : Int) (task : Task) :
    TaskManager :=
  let task1 := { task with createdAt := now, status := TaskStatus.pending }
  { tm with tasks := mapInsert tm.tasks task1.id task1 }

/-- One iteration of the `GetNextTask` selection loop: skip non-pending
tasks; a task whose `type` equals the worker record's `agentName` and whose
priority strictly exceeds the running maximum becomes the new best. -/
def selStep (nm : String) (acc : Option (String × Task) × TaskPriority)
    (e : String × Task) : Option (String × Task) × TaskPriority :=
  if e.2.status ≠ TaskStatus.pending then acc
  else if e.2.type = nm ∧ acc.2 < e.2.priority then (some e, e.2.priority)
  else acc

/-- The full selection loop of `GetNextTask`, starting from
`bestTask = nil`, `highestPriority = PriorityLow - 1`. -/
def selectBest (nm : String) (l : List (String × Task)) :
    Option (String × Task) × TaskPriority :=
  l.foldl (selStep nm) (none, PriorityLow - 1)

/-- The in-place mutation `bestTask.Status = Assigned; bestTask.AssignedTo
= agentName`. -/
def assignTaskTo (t : Task) (agentName : String) : Task :=
  { t with status := TaskStatus.assigned, assignedTo := agentName }

/-- `TaskManager.GetNextTask`: under one lock acquisition, look up the
caller's health record, refuse when absent, stale (heartbeat older than 30
seconds) or busy, otherwise select the highest-priority pending task whose
`type` equals the record's `agentName`, mark it assigned and return it. -/
def TaskManager.GetNextTask (tm : TaskManager) (now : Int)
    (agentName : String) : Option Task × TaskManager :=
  match lookup tm.healthStatus agentName with
  | none => (none, tm)
  | some health =>
    if livenessWindow < now - health.lastHeartbeat then (none, tm)
    else if health.isProcessing then (none, tm)
    else
      match (selectBest health.agentName tm.tasks).1 with
      | none => (none, tm)
      | some e =>
        let best1 := assignTaskTo e.2 agentName
        (some best1,
          { tm with tasks :=
              tm.tasks.map (fun p => if p.1 = e.1 then (e.1, best1) else p) })

/-- `TaskManager.UpdateTaskStatus`: unknown IDs fall through silently;
otherwise the status is overwritten and `completedAt` stamped exactly on
entering `Complete`. -/
def TaskManager.UpdateTaskStatus (tm : TaskManager) (now : Int)
    (taskID : String) (status : TaskStatus) : TaskManager :=
  match lookup tm.tasks taskID with
  | none => tm
  | some task =>
    let task1 := { task with
                   status := status,
                   completedAt := if status = TaskStatus.complete then some now
                                  else task.completedAt }
    { tm with tasks := mapInsert tm.tasks taskID task1 }

/-- `TaskManager.GetAgentHealth`: plain registry read. -/
def TaskManager.GetAgentHealth (tm : TaskManager) (agentName : String) :
    Option AgentHealth :=
  lookup tm.healthStatus agentName

/-- Rank of a status along the lifecycle chain
`Pending → Assigned → Running → {Complete | Failed}`. -/
def statusRank : TaskStatus → Nat
  | .pending => 0
  | .assigned => 1
  | .running => 2
  | .complete => 3
  | .failed => 3

/-- Forward order on statuses: equal, or strictly later in the chain.  The
two terminal states `complete` and `failed` are incomparable, so nothing
follows a terminal state. -/
def statusLE (a b : TaskStatus) : Prop := a = b ∨ statusRank a < statusRank b

instance (a b : TaskStatus) : Decidable (statusLE a b) := by
  unfold statusLE
  exact inferInstance

/-- One externally driven call against the task store. -/
inductive TMStep where
  | add (now : Int) (t : Task)
  | get (now : Int) (name : String)
  | upd (now : Int) (id : String) (st : TaskStatus)

/-- Apply one call to the store state. -/
def applyStep (tm : TaskManager) : TMStep → TaskManager
  | .add now t => tm.AddTask now t
  | .get now name => (tm.GetNextTask now name).2
  | .upd now id st => tm.UpdateTaskStatus now id st

/-- Run a sequence of calls. -/
def runSteps (tm : TaskManager) (l : List TMStep) : TaskManager :=
  l.foldl applyStep tm

/-- Caller discipline under which the lifecycle is monotone: `AddTask` only
with fresh IDs, `UpdateTaskStatus` only forward along `statusLE`. -/
def goodStep (tm : TaskManager) : TMStep → Prop
  | .add _ t => lookup tm.tasks t.id = none
  | .get _ _ => True
  | .upd _ id st => ∀ t, lookup tm.tasks id = some t → statusLE t.status st

/-- The discipline holds at every point of the sequence. -/
def goodSteps : TaskManager → List TMStep → Prop
  | _, [] => True
  | tm, s :: l => goodStep tm s ∧ goodSteps (applyStep tm s) l

/-- Go map invariant: keys of the task map are pairwise distinct. -/
def keysNodup (tm : TaskManager) : Prop := (tm.tasks.map Prod.fst).Nodup

instance (tm : TaskManager) : Decidable (keysNodup tm) := by
  unfold keysNodup
  exact inferInstance

/-! Embedding of `infrastructure_agents.go` (namespace `InfraAgents`): the
observer's metric aggregation and the orchestrator variant whose
`CheckScaling`/`ScaleSystem` work on a registry of `AgentInstance`s. -/

namespace InfraAgents

/-- The scaling constants of `infrastructure_agents.go` (lower-case
`const` block). -/
def cpuThreshold : ℚ := 80

def memoryThreshold : ℚ := 85

def tasksThreshold : Int := 100

def errorThreshold : ℚ := 1 / 20

def cooldownPeriod : Int := 300

/-- `AgentMetrics` of `infrastructure_agents.go`; `Memory` is a `uint64`
byte count, the float fields are exact rationals. -/
structure AgentMetrics where
  agentName : String
  cpu : ℚ
  memory : ℕ
  tasksInQueue : Int
  responseTime : ℚ
  errorRate : ℚ
  lastUpdated : Int
deriving DecidableEq

/-- Fresh metrics record `&AgentMetrics{AgentName: name}` (all other
fields zero). -/
def AgentMetrics.init (name : String) : AgentMetrics :=
  { agentName := name, cpu := 0, memory := 0, tasksInQueue := 0,
    responseTime := 0, errorRate := 0, lastUpdated := 0 }

/-- `SystemMetrics` of `infrastructure_agents.go`. -/
structure SystemMetrics where
  cpuUsage : ℚ
  memoryUsage : ℚ
  taskCount : Int
  errorRate : ℚ
deriving DecidableEq

/-- The base `Agent` record of `agent.go`. -/
structure Agent where
  id : String
  name : String
  role : String
  goal : String
  allowDelegation : Bool
  model : String
  backstory : String
deriving DecidableEq

/-- `Agent.Clone` of `agent.go`: a field-by-field copy, the `Name`
included. -/
def Agent.Clone (a : Agent) : Agent :=
  { id := a.id, name := a.name, role := a.role, goal := a.goal,
    allowDelegation := a.allowDelegation, model := a.model,
    backstory := a.backstory }

/-- `AgentInstance` of `infrastructure_agents.go`. -/
structure AgentInstance where
  agent : Agent
  lastScaled : Int
  metrics : AgentMetrics
deriving DecidableEq

/-- State of the `OrchestratorInfrastructureAgent` of
`infrastructure_agents.go`: instance registry keyed by agent name, last
scale time and the latest system metrics (bus connections are I/O). -/
structure OrchestratorInfrastructureAgent where
  agent : Agent
  instances : List (String × List AgentInstance)
  lastScaleTime : Int
  metrics : SystemMetrics
deriving DecidableEq

/-- The four OR'd overload conditions evaluated by `CheckScaling`. -/
def overloaded (m : SystemMetrics) : Prop :=
  m.cpuUsage > cpuThreshold ∨ m.memoryUsage > memoryThreshold ∨
    m.taskCount > tasksThreshold ∨ m.errorRate > errorThreshold

instance (m : SystemMetrics) : Decidable (overloaded m) := by
  unfold overloaded
  exact inferInstance

/-- `CheckScaling` of `infrastructure_agents.go`: refuse inside the
cooldown; otherwise trigger on any overload condition, stamping
`lastScaleTime` immediately on a trigger. -/
def CheckScaling (o : OrchestratorInfrastructureAgent) (now : Int) :
    Bool × OrchestratorInfrastructureAgent :=
  if now - o.lastScaleTime < cooldownPeriod then (false, o)
  else if overloaded o.metrics then (true, { o with lastScaleTime := now })
  else (false, o)

/-- The per-template body of the `ScaleSystem` loop: a non-empty instance
list gains a clone of its first instance. -/
def scaleTemplate (now : Int) (p : String × List AgentInstance) :
    String × List AgentInstance :=
  match p.2 with
  | [] => p
  | base :: rest =>
    (p.1, (base :: rest) ++
      [{ agent := base.agent.Clone, lastScaled := now,
         metrics := AgentMetrics.init base.agent.Clone.name }])

/-- `ScaleSystem` of `infrastructure_agents.go`: gated by `CheckScaling`;
when triggered, every template with at least one instance gains a clone of
its first instance, regardless of any per-instance load figure. -/
def ScaleSystem (o : OrchestratorInfrastructureAgent) (now : Int) :
    OrchestratorInfrastructureAgent :=
  let r := CheckScaling o now
  if r.1 = false then r.2
  else { r.2 with instances := r.2.instances.map (scaleTemplate now) }

/-- State of the `ObserverInfrastructureAgent` of
`infrastructure_agents.go` (first definition): per-agent metrics map and
the aggregated snapshot. -/
structure ObserverInfrastructureAgent where
  agent : Agent
  metricsMap : List (String × AgentMetrics)
  systemMetrics : SystemMetrics
deriving DecidableEq

/-- Per-entry refresh done inside the `collectMetrics` loop: store the
sampled memory (`m.Alloc`, a `uint64`) and CPU figure and stamp the
entry. -/
def refreshEntry (sampleCPU : String → ℚ) (sampleMem : String → ℕ)
    (now : Int) (p : String × AgentMetrics) : String × AgentMetrics :=
  (p.1, { p.2 with
          memory := sampleMem p.1 % 2 ^ 64,
          cpu := sampleCPU p.1,
          lastUpdated := now })

/-- One tick of `collectMetrics`: refresh every tracked entry, accumulate
`totalCPU`, `totalMemory` (with `uint64` wrap-around), `totalTasks` and
`totalErrors` over the refreshed entries, and, only when at least one agent
is tracked, replace the system snapshot by
`(mean cpu, mean memory, TOTAL tasks, mean error rate)`. -/
def collectMetricsTick (o : ObserverInfrastructureAgent)
    (sampleCPU : String → ℚ) (sampleMem : String → ℕ) (now : Int) :
    ObserverInfrastructureAgent :=
  let newMap := o.metricsMap.map (refreshEntry sampleCPU sampleMem now)
  let totalCPU : ℚ := newMap.foldl (fun s p => s + p.2.cpu) 0
  let totalMemory : ℕ := newMap.foldl (fun s p => (s + p.2.memory) % 2 ^ 64) 0
  let totalTasks : Int := newMap.foldl (fun s p => s + p.2.tasksInQueue) 0
  let totalErrors : ℚ := newMap.foldl (fun s p => s + p.2.errorRate) 0
  let agentCount := newMap.length
  if 0 < agentCount then
    { o with
      metricsMap := newMap,
      systemMetrics := { cpuUsage := totalCPU / (agentCount : ℚ),
                         memoryUsage := (totalMemory : ℚ) / (agentCount : ℚ),
                         taskCount := totalTasks,
                         errorRate := totalErrors / (agentCount : ℚ) } }
  else { o with metricsMap := newMap }

/-- Arithmetic mean of a list of rationals. -/
def ratMean (l : List ℚ) : ℚ := l.sum / (l.length : ℚ)

end InfraAgents

/-! Embedding of `orchestrator_infrastructure_agent.go` (namespace
`OrchInfra`): the orchestrator variant that owns a `TaskManager` and a map
of cognitive agents, with the 5-second `scaleOut` overload gate.  Its
constants are the ones of `scaling_config.go`, the only constant block
whose `TASKS_THRESHOLD`/`ERROR_THRESHOLD` are integers as required by the
`SystemMetrics` of `metrics_types.go`. -/

namespace OrchInfra

def CPU_THRESHOLD : ℚ := 80

def MEMORY_THRESHOLD : ℚ := 85

def TASKS_THRESHOLD : Int := 10

def ERROR_THRESHOLD : Int := 5

/-- `SCALE_COOLDOWN = 5 * time.Minute`, in seconds. -/
def SCALE_COOLDOWN : Int := 300

/-- `SystemMetrics` of `metrics_types.go`. -/
structure SystemMetrics where
  cpuUsage : ℚ
  memoryUsage : ℚ
  tasksPerAgent : Int
  errorCount : Int
  lastUpdate : Int
deriving DecidableEq

/-- Configuration identity of a `CognitiveAgent` (`cognitive_agent.go`).
Only the role/goal/behaviour fields relevant to cloning and registration
are modeled; the embedded `BaseAgent` (which holds `ID`/`Name`) is not
under `src/`, so its name field is carried here directly. -/
structure CognitiveAgent where
  name : String
  role : String
  goal : String
  model : String
  allowDelegation : Bool
  backstory : String
deriving DecidableEq

/-- Modelled from the spec: `CognitiveAgent.Clone` is called by `scaleOut`
but is not under `src/` (it lives on the missing embedded `BaseAgent`).
Section 4.4 of the spec: cloning yields "a derived unique name (e.g.,
template name + timestamp), identical role/behavior configuration". -/
def CognitiveAgent.Clone (a : CognitiveAgent) (now : Int) : CognitiveAgent :=
  { a with name := a.name ++ "-" ++ toString now }

/-- State of the `OrchestratorInfrastructureAgent` of
`orchestrator_infrastructure_agent.go`: a task manager, the registry of
cognitive agents keyed by name, the last scale time and the observer's
latest snapshot. -/
structure OrchestratorInfrastructureAgent where
  taskManager : TaskManager
  agents : List (String × CognitiveAgent)
  lastScaleTime : Int
  observerMetrics : SystemMetrics
deriving DecidableEq

/-- The overload gate of `scaleOut`: the agent has a health record that is
marked processing with an average processing time above 5 seconds.  Note
the heartbeat age is never consulted. -/
def cloneGateB (tm : TaskManager) (a : CognitiveAgent) : Bool :=
  match tm.GetAgentHealth a.name with
  | none => false
  | some h => h.isProcessing && decide ((5 : ℚ) < h.processingTime)

/-- One iteration of the `scaleOut` loop over the agent registry:
overloaded agents are cloned and registered (`RegisterAgent`) under the
clone's name. -/
def scaleOutStep (tm : TaskManager) (now : Int)
    (acc : List (String × CognitiveAgent)) (p : String × CognitiveAgent) :
    List (String × CognitiveAgent) :=
  match tm.GetAgentHealth p.2.name with
  | none => acc
  | some h =>
    if h.isProcessing ∧ (5 : ℚ) < h.processingTime then
      mapInsert acc (p.2.Clone now).name (p.2.Clone now)
    else acc

/-- `scaleOut` of `orchestrator_infrastructure_agent.go`. -/
def scaleOut (o : OrchestratorInfrastructureAgent) (now : Int) :
    OrchestratorInfrastructureAgent :=
  { o with agents := o.agents.foldl (scaleOutStep o.taskManager now) o.agents }

/-- The four OR'd conditions of this file's `ScaleSystem`. -/
def needsScaling (m : SystemMetrics) : Prop :=
  m.cpuUsage > CPU_THRESHOLD ∨ m.memoryUsage > MEMORY_THRESHOLD ∨
    m.tasksPerAgent > TASKS_THRESHOLD ∨ m.errorCount > ERROR_THRESHOLD

instance (m : SystemMetrics) : Decidable (needsScaling m) := by
  unfold needsScaling
  exact inferInstance

/-- `ScaleSystem` of `orchestrator_infrastructure_agent.go`: inside the
cooldown do nothing; otherwise, when any threshold is breached, run
`scaleOut` and stamp `lastScaleTime`. -/
def ScaleSystem (o : OrchestratorInfrastructureAgent) (now : Int) :
    OrchestratorInfrastructureAgent :=
  if now - o.lastScaleTime < SCALE_COOLDOWN then o
  else if needsScaling o.observerMetrics then
    { scaleOut o now with lastScaleTime := now }
  else o

/-- Name a clone would be registered under. -/
def cloneName (now : Int) (p : String × CognitiveAgent) : String :=
  (p.2.Clone now).name

end OrchInfra

/-! Concrete states used by counterexamples and witnesses. -/

/-- A fresh pending task of type "quiz". -/
def mkQuizTask (i : String) (p : TaskPriority) : Task :=
  { id := i, type := "quiz", priority := p, status := TaskStatus.pending,
    data := "", expectedOutput := "", formatOutput := "", createdAt := 0,
    assignedTo := "", completedAt := none }

/-- An idle worker health record. -/
def idleHealth (n : String) (hb : Int) : AgentHealth :=
  { agentName := n, lastHeartbeat := hb, isProcessing := false,
    currentTaskID := "", processingTime := 0, successRate := 1,
    lastError := "", lastErrorTime := 0 }

/-- A busy worker health record with the given processing-time estimate. -/
def busyHealth (n : String) (hb : Int) (pt : ℚ) : AgentHealth :=
  { agentName := n, lastHeartbeat := hb, isProcessing := true,
    currentTaskID := "", processingTime := pt, successRate := 1,
    lastError := "", lastErrorTime := 0 }

/-- Three pending "quiz" tasks of priority Low, Normal and High. -/
def quizTasks : List (String × Task) :=
  [("q1", mkQuizTask "q1" PriorityLow), ("q2", mkQuizTask "q2" PriorityNormal),
   ("q3", mkQuizTask "q3" PriorityHigh)]

/-- The scenario of the claim: worker named "quiz-worker", tasks of type
"quiz". -/
def tmC1 : TaskManager :=
  { tasks := quizTasks,
    healthStatus := [("quiz-worker", idleHealth "quiz-worker" 100)] }

/-- The scenario with the worker named exactly like the task type. -/
def tmC1w : TaskManager :=
  { tasks := quizTasks, healthStatus := [("quiz", idleHealth "quiz" 100)] }

/-- One pending "quiz" task, worker "quiz" whose heartbeat is at instant
0. -/
def tmC3 : TaskManager :=
  { tasks := [("q1", mkQuizTask "q1" PriorityNormal)],
    healthStatus := [("quiz", idleHealth "quiz" 0)] }

/-- A store with one pending task "c5". -/
def taskC5 : Task := mkQuizTask "c5" PriorityNormal

def tmC5a : TaskManager := TaskManager.AddTask { tasks := [], healthStatus := [] } 0 taskC5

def tmC5b : TaskManager := tmC5a.UpdateTaskStatus 1 "c5" TaskStatus.complete

def tmC5c : TaskManager := tmC5b.UpdateTaskStatus 2 "c5" TaskStatus.pending

/-- A store with one pending task "w5" for the C5 witness. -/
def tmC5w : TaskManager :=
  { tasks := [("w5", mkQuizTask "w5" PriorityLow)], healthStatus := [] }

/-- A store with one pending task "t8". -/
def tmC8 : TaskManager :=
  { tasks := [("t8", mkQuizTask "t8" PriorityLow)], healthStatus := [] }

/-- An agent record with empty identity, used where the embedded `Agent`
of an infrastructure component is irrelevant. -/
def blankAgent : InfraAgents.Agent :=
  { id := "", name := "", role := "", goal := "", allowDelegation := false,
    model := "", backstory := "" }

/-- Metrics breaching the CPU threshold (90% > 80%). -/
def mC4 : InfraAgents.SystemMetrics :=
  { cpuUsage := 90, memoryUsage := 50, taskCount := 10, errorRate := 0 }

/-- Orchestrator (infrastructure_agents.go variant) with no instances,
breached metrics and last scale at instant 0. -/
def oC4 : InfraAgents.OrchestratorInfrastructureAgent :=
  { agent := blankAgent, instances := [], lastScaleTime := 0, metrics := mC4 }

/-- A "quiz" worker template agent. -/
def quizAgent : InfraAgents.Agent :=
  { id := "", name := "quiz", role := "quiz generation",
    goal := "produce quizzes", allowDelegation := false, model := "m",
    backstory := "b" }

def instQuiz : InfraAgents.AgentInstance :=
  { agent := quizAgent, lastScaled := 0,
    metrics := InfraAgents.AgentMetrics.init "quiz" }

/-- Orchestrator with one "quiz" template instance and breached metrics. -/
def oC6 : InfraAgents.OrchestratorInfrastructureAgent :=
  { agent := blankAgent, instances := [("quiz", [instQuiz])],
    lastScaleTime := 0, metrics := mC4 }

/-- A cognitive "quiz" agent. -/
def agC7 : OrchInfra.CognitiveAgent :=
  { name := "quiz", role := "r", goal := "g", model := "m",
    allowDelegation := false, backstory := "b" }

/-- A second cognitive agent that is not overloaded. -/
def agC7b : OrchInfra.CognitiveAgent :=
  { name := "beta", role := "r", goal := "g", model := "m",
    allowDelegation := false, backstory := "b" }

/-- Breached observer snapshot for the OrchInfra variant. -/
def mOrch : OrchInfra.SystemMetrics :=
  { cpuUsage := 90, memoryUsage := 0, tasksPerAgent := 0, errorCount := 0,
    lastUpdate := 0 }

/-- Health registry backing `oC7`: worker "quiz" marked processing with a
10-second estimate, heartbeat at instant 0. -/
def tmC7 : TaskManager :=
  { tasks := [], healthStatus := [("quiz", busyHealth "quiz" 0 10)] }

/-- OrchInfra orchestrator whose only agent "quiz" is stale but marked
processing with an estimate above the 5s threshold. -/
def oC7 : OrchInfra.OrchestratorInfrastructureAgent :=
  { taskManager := tmC7, agents := [("quiz", agC7)], lastScaleTime := 0,
    observerMetrics := mOrch }

/-- Health registry for the C7 witness: "quiz" overloaded, "beta" idle. -/
def tmC7w : TaskManager :=
  { tasks := [],
    healthStatus := [("quiz", busyHealth "quiz" 0 10),
                     ("beta", idleHealth "beta" 0)] }

/-- OrchInfra orchestrator with one overloaded and one idle agent. -/
def oC7w : OrchInfra.OrchestratorInfrastructureAgent :=
  { taskManager := tmC7w, agents := [("quiz", agC7), ("beta", agC7b)],
    lastScaleTime := 0, observerMetrics := mOrch }

/-- Per-worker metrics with the given queue depth. -/
def amC9 (n : String) (d : Int) : InfraAgents.AgentMetrics :=
  { agentName := n, cpu := 0, memory := 0, tasksInQueue := d,
    responseTime := 0, errorRate := 0, lastUpdated := 0 }

/-- Observer tracking two workers with queue depths 1 and 3. -/
def oC9 : InfraAgents.ObserverInfrastructureAgent :=
  { agent := blankAgent,
    metricsMap := [("a", amC9 "a" 1), ("b", amC9 "b" 3)],
    systemMetrics := { cpuUsage := 0, memoryUsage := 0, taskCount := 0,
                       errorRate := 0 } }

/-- Observer tracking nobody. -/
def oC9e : InfraAgents.ObserverInfrastructureAgent :=
  { agent := blankAgent, metricsMap := [],
    systemMetrics := { cpuUsage := 7, memoryUsage := 8, taskCount := 9,
                       errorRate := 1 } }

/-- Constant-zero CPU sampler. -/
def zeroCPU : String → ℚ := fun _ => 0

/-- Constant-zero memory sampler. -/
def zeroMem : String → ℕ := fun _ => 0

section MapLemmas

variable {α : Type}

theorem lookup_nil (k : String) : lookup ([] : List (String × α)) k = none := rfl

theorem lookup_cons (e : String × α) (m : List (String × α)) (k : String) :
    lookup (e :: m) k = if e.1 = k then some e.2 else lookup m k := by
  by_cases h : e.1 = k <;> simp [lookup, List.find?, h]

theorem lookup_map_update (m : List (String × α)) (k j : String) (v : α) :
    lookup (m.map (fun p => if p.1 = k then (k, v) else p)) j =
      if j = k then (lookup m k).map (fun _ => v) else lookup m j := by
  induction m with
  | nil => by_cases h : j = k <;> simp [lookup_nil, h]
  | cons e m ih =>
    by_cases hek : e.1 = k
    · by_cases hjk : j = k
      · subst hjk
        simp [List.map_cons, lookup_cons, hek, ih]
      · have hkj : ¬ (k = j) := fun h => hjk h.symm
        have hej : ¬ (e.1 = j) := fun h => hjk (h.symm.trans hek)
        simp [List.map_cons, lookup_cons, hek, hjk, hkj, hej, ih]
    · by_cases hej : e.1 = j
      · have hjk : ¬ (j = k) := fun h => hek (hej.trans h)
        simp [List.map_cons, lookup_cons, hek, hej, hjk, ih]
      · simp [List.map_cons, lookup_cons, hek, hej, ih]

theorem lookup_append (m1 m2 : List (String × α)) (k : String) :
    lookup (m1 ++ m2) k =
      match lookup m1 k with
      | some v => some v
      | none => lookup m2 k := by
  induction m1 with
  | nil => simp [lookup_nil]
  | cons e m ih =>
    by_cases h : e.1 = k
    · simp [lookup_cons, h]
    · simpa [lookup_cons, h] using ih

theorem lookup_isSome_of_any (m : List (String × α)) (k : String)
    (h : m.any (fun e => e.1 = k) = true) : (lookup m k).isSome := by
  induction m with
  | nil => simp at h
  | cons e m ih =>
    rw [lookup_cons]
    by_cases he : e.1 = k
    · simp [he]
    · simp only [List.any_cons, Bool.or_eq_true, decide_eq_true_eq] at h
      rcases h with h | h
      · exact absurd h he
      · simpa [he] using ih h

theorem lookup_none_of_not_any (m : List (String × α)) (k : String)
    (h : m.any (fun e => e.1 = k) = false) : lookup m k = none := by
  induction m with
  | nil => rfl
  | cons e m ih =>
    simp only [List.any_cons, Bool.or_eq_false_iff, decide_eq_false_iff_not] at h
    rw [lookup_cons, if_neg h.1]
    exact ih h.2

theorem lookup_mapInsert (m : List (String × α)) (k j : String) (v : α) :
    lookup (mapInsert m k v) j = if j = k then some v else lookup m j := by
  unfold mapInsert
  by_cases hany : m.any (fun e => e.1 = k) = true
  · rw [if_pos hany, lookup_map_update]
    by_cases hjk : j = k
    · rcases Option.isSome_iff_exists.1 (lookup_isSome_of_any m k hany) with ⟨w, hw⟩
      simp [hjk, hw]
    · simp [hjk]
  · have hany2 : m.any (fun e => e.1 = k) = false := Bool.eq_false_iff.2 hany
    rw [if_neg hany, lookup_append]
    have hmk : lookup m k = none := lookup_none_of_not_any m k hany2
    by_cases hjk : j = k
    · subst hjk
      rw [hmk]
      simp [lookup_cons]
    · cases hlj : lookup m j with
      | some w => simp [hlj, hjk]
      | none =>
        have hkj : ¬ (k = j) := fun h => hjk h.symm
        simp [hlj, hjk, lookup_cons, hkj, lookup_nil]

theorem mapInsert_keys_of_any (m : List (String × α)) (k : String) (v : α)
    (h : m.any (fun e => e.1 = k) = true) :
    (mapInsert m k v).map Prod.fst = m.map Prod.fst := by
  unfold mapInsert
  rw [if_pos h, List.map_map]
  refine List.map_congr_left (fun e _ => ?_)
  by_cases he : e.1 = k
  · simp [he]
  · simp [he]

theorem mapInsert_keys_nodup (m : List (String × α)) (k : String) (v : α)
    (h : (m.map Prod.fst).Nodup) : ((mapInsert m k v).map Prod.fst).Nodup := by
  by_cases hany : m.any (fun e => e.1 = k) = true
  · rw [mapInsert_keys_of_any m k v hany]
    exact h
  · unfold mapInsert
    rw [if_neg hany, List.map_append, List.nodup_append]
    refine ⟨h, by simp, ?_⟩
    intro a ha hb
    simp only [List.map_cons, List.map_nil, List.mem_singleton] at hb
    subst hb
    rcases List.mem_map.1 ha with ⟨e, he, hek⟩
    exact hany (List.any_eq_true.2 ⟨e, he, by simpa using hek⟩)

theorem lookup_eq_some_mem (m : List (String × α)) (k : String) (v : α)
    (h : lookup m k = some v) : (k, v) ∈ m := by
  induction m with
  | nil => simp [lookup_nil] at h
  | cons e m ih =>
    rw [lookup_cons] at h
    by_cases he : e.1 = k
    · rw [if_pos he] at h
      cases e with
      | mk a b =>
        simp only at he h
        subst he
        injection h with hbv
        subst hbv
        exact List.mem_cons_self _ _
    · rw [if_neg he] at h
      exact List.mem_cons_of_mem _ (ih h)

theorem lookup_of_mem_nodup (m : List (String × α)) (e : String × α)
    (hmem : e ∈ m) (hnd : (m.map Prod.fst).Nodup) :
    lookup m e.1 = some e.2 := by
  induction m with
  | nil => simp at hmem
  | cons f m ih =>
    rw [List.map_cons, List.nodup_cons] at hnd
    rcases List.mem_cons.1 hmem with h | h
    · subst h; simp [lookup_cons]
    · have hne : f.1 ≠ e.1 := by
        intro hfe
        exact hnd.1 (hfe ▸ List.mem_map.2 ⟨e, h, rfl⟩)
      rw [lookup_cons, if_neg hne]
      exact ih h hnd.2

end MapLemmas

section Selection

variable (nm : String)

theorem selStep_snd_le (acc : Option (String × Task) × TaskPriority)
    (e : String × Task) : acc.2 ≤ (selStep nm acc e).2 := by
  unfold selStep
  split_ifs with h1 h2
  · exact le_refl _
  · exact le_of_lt h2.2
  · exact le_refl _

theorem sel_foldl_snd_mono (l : List (String × Task)) :
    ∀ acc, acc.2 ≤ (l.foldl (selStep nm) acc).2 := by
  induction l with
  | nil => intro acc; exact le_refl _
  | cons e l ih =>
    intro acc
    exact le_trans (selStep_snd_le nm acc e) (ih _)

theorem selStep_snd_ub (acc : Option (String × Task) × TaskPriority)
    (e : String × Task) (hp : e.2.status = TaskStatus.pending)
    (ht : e.2.type = nm) : e.2.priority ≤ (selStep nm acc e).2 := by
  unfold selStep
  rw [if_neg (by simp [hp])]
  split_ifs with h2
  · exact le_refl _
  · exact le_of_not_lt (fun hlt => h2 ⟨ht, hlt⟩)

theorem sel_foldl_ub (l : List (String × Task)) :
    ∀ acc (e : String × Task), e ∈ l → e.2.status = TaskStatus.pending →
      e.2.type = nm → e.2.priority ≤ (l.foldl (selStep nm) acc).2 := by
  induction l with
  | nil =>
    intro acc e he
    simp at he
  | cons f l ih =>
    intro acc e he hp ht
    rcases List.mem_cons.1 he with h | h
    · subst h
      calc e.2.priority ≤ (selStep nm acc e).2 := selStep_snd_ub nm acc e hp ht
        _ ≤ _ := sel_foldl_snd_mono nm l _
    · exact ih _ e h hp ht

theorem sel_foldl_cases (l : List (String × Task)) :
    ∀ acc, l.foldl (selStep nm) acc = acc ∨
      ∃ e, e ∈ l ∧ l.foldl (selStep nm) acc = (some e, e.2.priority) ∧
        e.2.status = TaskStatus.pending ∧ e.2.type = nm := by
  induction l with
  | nil => intro acc; exact Or.inl rfl
  | cons f l ih =>
    intro acc
    have hstep : selStep nm acc f = acc ∨
        (selStep nm acc f = (some f, f.2.priority) ∧
          f.2.status = TaskStatus.pending ∧ f.2.type = nm) := by
      unfold selStep
      split_ifs with h1 h2
      · exact Or.inl rfl
      · exact Or.inr ⟨rfl, of_not_not h1, h2.1⟩
      · exact Or.inl rfl
    rw [List.foldl_cons]
    rcases hstep with h | ⟨h, hp, ht⟩
    · rw [h]
      rcases ih acc with h2 | ⟨e, he, h2, hp2, ht2⟩
      · exact Or.inl h2
      · exact Or.inr ⟨e, List.mem_cons_of_mem _ he, h2, hp2, ht2⟩
    · rw [h]
      rcases ih (some f, f.2.priority) with h2 | ⟨e, he, h2, hp2, ht2⟩
      · exact Or.inr ⟨f, List.mem_cons_self _ _, h2, hp, ht⟩
      · exact Or.inr ⟨e, List.mem_cons_of_mem _ he, h2, hp2, ht2⟩

theorem selectBest_some (l : List (String × Task)) (e : String × Task)
    (h : (selectBest nm l).1 = some e) :
    e ∈ l ∧ e.2.status = TaskStatus.pending ∧ e.2.type = nm := by
  rcases sel_foldl_cases nm l (none, PriorityLow - 1) with hc | ⟨f, hf, heq, hp, ht⟩
  · unfold selectBest at h
    rw [hc] at h
    simp at h
  · unfold selectBest at h
    rw [heq] at h
    simp only [Option.some.injEq] at h
    subst h
    exact ⟨hf, hp, ht⟩

end Selection

theorem getNextTask_live_eq (tm : TaskManager) (now : Int) (name : String)
    (health : AgentHealth)
    (hh : lookup tm.healthStatus name = some health)
    (hnl : ¬ livenessWindow < now - health.lastHeartbeat)
    (hidle : health.isProcessing = false) :
    tm.GetNextTask now name =
      match (selectBest health.agentName tm.tasks).1 with
      | none => (none, tm)
      | some e =>
        (some (assignTaskTo e.2 name),
          { tm with
            tasks := tm.tasks.map
                       (fun p => if p.1 = e.1 then (e.1, assignTaskTo e.2 name)
                                 else p) }) := by
  simp only [TaskManager.GetNextTask, hh]
  rw [if_neg hnl]
  rw [if_neg (by simp [hidle])]

theorem map_update_of_ne {α : Type} (l : List (String × α)) (k : String)
    (v : α) (h : ∀ p, p ∈ l → p.1 ≠ k) :
    l.map (fun p => if p.1 = k then (k, v) else p) = l := by
  induction l with
  | nil => rfl
  | cons f l ih =>
    rw [List.map_cons, if_neg (h f (List.mem_cons_self _ _)),
      ih (fun p hp => h p (List.mem_cons_of_mem _ hp))]

/-- C3 (amended): a worker with no health record, or whose heartbeat is
strictly older than the 30-second liveness window, never receives a task
and the call leaves the store untouched, regardless of the pending queue;
liveness is recomputed from `now - lastHeartbeat` on every call.  The
amendment: the code counts a worker live iff
`now - lastHeartbeat ≤ livenessWindow`, not `<` as the claim's invariant
states. -/
theorem getNextTask_liveness_gate (tm : TaskManager) (now : Int)
    (name : String)
    (h : ∀ hr, lookup tm.healthStatus name = some hr →
      livenessWindow < now - hr.lastHeartbeat) :
    tm.GetNextTask now name = (none, tm) := by
  cases hl : lookup tm.healthStatus name with
  | none => simp [TaskManager.GetNextTask, hl]
  | some hr => simp [TaskManager.GetNextTask, hl, h hr hl]

theorem getNextTask_liveness_gate_witness :
    tmC3.GetNextTask 100 "quiz" = (none, tmC3) :=
  getNextTask_liveness_gate tmC3 100 "quiz" (fun hr hhr => by
    have h2 : some (idleHealth "quiz" 0) = some hr := hhr
    injection h2 with h3
    rw [← h3]
    decide)

/-- C3 fails as stated at the window boundary: at heartbeat age exactly 30
seconds the claim's liveness predicate `now - lastHeartbeat <
livenessWindow` is false, yet `GetNextTask` still hands the worker a
task. -/
theorem getNextTask_boundary_counterexample :
    (tmC3.GetNextTask 30 "quiz").1.isSome = true ∧
      ¬ (30 - (idleHealth "quiz" 0).lastHeartbeat < livenessWindow) := by
  constructor
  · decide
  · decide

/-- C1 (amended): for a live, idle worker, `GetNextTask` returns a task of
the highest priority among the pending tasks whose type equals the
worker's name (the `AgentHealth.agentName` field), returned already marked
Assigned to the caller.  The claim's "worker of that registered type" is
in the code "worker whose name equals the task's type", so the claimed
instance — worker "quiz-worker" receiving tasks of type "quiz" — does not
hold (see the counterexample); renaming the worker to "quiz" restores the
High-before-Normal-before-Low behaviour. -/
theorem getNextTask_priority_amended (tm : TaskManager) (now : Int)
    (name : String) (health : AgentHealth)
    (hh : lookup tm.healthStatus name = some health)
    (hlive : now - health.lastHeartbeat ≤ livenessWindow)
    (hidle : health.isProcessing = false)
    (hex : ∃ e, e ∈ tm.tasks ∧ e.2.status = TaskStatus.pending ∧
      e.2.type = health.agentName ∧ e.2.priority = PriorityHigh)
    (hub : ∀ e, e ∈ tm.tasks → e.2.status = TaskStatus.pending →
      e.2.type = health.agentName → e.2.priority ≤ PriorityHigh) :
    ∃ t1, (tm.GetNextTask now name).1 = some t1 ∧
      t1.priority = PriorityHigh ∧ t1.status = TaskStatus.assigned ∧
      t1.assignedTo = name := by
  have hnl : ¬ livenessWindow < now - health.lastHeartbeat := not_lt.2 hlive
  rcases hex with ⟨e0, he0, hp0, ht0, hpr0⟩
  have hub0 := sel_foldl_ub health.agentName tm.tasks
    (none, PriorityLow - 1) e0 he0 hp0 ht0
  rcases sel_foldl_cases health.agentName tm.tasks (none, PriorityLow - 1)
    with hc | ⟨e, he, heq, hp, ht⟩
  · exfalso
    rw [hc, hpr0] at hub0
    norm_num [PriorityHigh, PriorityLow] at hub0
  · have hsel : (selectBest health.agentName tm.tasks).1 = some e := by
      unfold selectBest
      rw [heq]
    have h3 : e.2.priority = PriorityHigh := by
      refine le_antisymm (hub e he hp ht) ?_
      rw [heq, hpr0] at hub0
      exact hub0
    refine ⟨assignTaskTo e.2 name, ?_, ?_, rfl, rfl⟩
    · rw [getNextTask_live_eq tm now name health hh hnl hidle, hsel]
    · simpa [assignTaskTo] using h3

theorem getNextTask_priority_amended_witness :
    ∃ t1, (tmC1w.GetNextTask 110 "quiz").1 = some t1 ∧
      t1.priority = PriorityHigh ∧ t1.status = TaskStatus.assigned ∧
      t1.assignedTo = "quiz" :=
  getNextTask_priority_amended tmC1w 110 "quiz" (idleHealth "quiz" 100)
    (by decide) (by decide) (by decide)
    ⟨("q3", mkQuizTask "q3" PriorityHigh), by decide, by decide, by decide,
      by decide⟩
    (by decide)

/-- C1 fails as stated: with three pending "quiz" tasks of priorities Low,
Normal and High and a live, idle worker named "quiz-worker",
`GetNextTask("quiz-worker")` returns nothing at all, because the selection
loop compares `task.Type` with the worker's name and "quiz" is not
"quiz-worker". -/
theorem getNextTask_quizWorker_counterexample :
    (tmC1.GetNextTask 110 "quiz-worker").1 = none ∧
      lookup tmC1.healthStatus "quiz-worker" =
        some (idleHealth "quiz-worker" 100) ∧
      (idleHealth "quiz-worker" 100).isProcessing = false ∧
      110 - (idleHealth "quiz-worker" 100).lastHeartbeat ≤ livenessWindow ∧
      lookup tmC1.tasks "q3" = some (mkQuizTask "q3" PriorityHigh) ∧
      (mkQuizTask "q3" PriorityHigh).status = TaskStatus.pending ∧
      (mkQuizTask "q3" PriorityHigh).type = "quiz" ∧
      (mkQuizTask "q3" PriorityHigh).priority = PriorityHigh := by
  refine ⟨by decide, by decide, by decide, by decide, by decide, by decide,
    by decide, by decide⟩

theorem getNextTask_none_eq (tm : TaskManager) (now : Int) (name : String)
    (hr : AgentHealth) (hl : lookup tm.healthStatus name = some hr)
    (hlv : ¬ livenessWindow < now - hr.lastHeartbeat)
    (hidle : hr.isProcessing = false)
    (hsel : (selectBest hr.agentName tm.tasks).1 = none) :
    tm.GetNextTask now name = (none, tm) := by
  rw [getNextTask_live_eq tm now name hr hl hlv hidle]
  simp only [hsel]

theorem getNextTask_some_eq (tm : TaskManager) (now : Int) (name : String)
    (hr : AgentHealth) (e : String × Task)
    (hl : lookup tm.healthStatus name = some hr)
    (hlv : ¬ livenessWindow < now - hr.lastHeartbeat)
    (hidle : hr.isProcessing = false)
    (hsel : (selectBest hr.agentName tm.tasks).1 = some e) :
    tm.GetNextTask now name =
      (some (assignTaskTo e.2 name),
        { tm with
          tasks := tm.tasks.map
                     (fun p => if p.1 = e.1 then (e.1, assignTaskTo e.2 name)
                               else p) }) := by
  rw [getNextTask_live_eq tm now name hr hl hlv hidle]
  simp only [hsel]

/-- C2: `GetNextTask` returns none for a worker whose health record is
marked processing (stated here contrapositively: a returned task implies
the record was idle); and whenever a task is returned it was Pending in
the very pre-state on which the liveness/idle checks were evaluated — the
whole call is one state transition, mirroring the single
`Lock`/`defer Unlock` critical section — and both the returned value and
the stored entry are Assigned with `assignedTo` equal to the caller. -/
theorem getNextTask_assign_spec (tm : TaskManager) (now : Int)
    (name : String) (t1 : Task)
    (h : (tm.GetNextTask now name).1 = some t1) :
    (∀ hr, lookup tm.healthStatus name = some hr →
      hr.isProcessing = false) ∧
    ∃ e, e ∈ tm.tasks ∧ e.2.status = TaskStatus.pending ∧
      t1 = assignTaskTo e.2 name ∧ t1.status = TaskStatus.assigned ∧
      t1.assignedTo = name ∧
      (tm.GetNextTask now name).2.healthStatus = tm.healthStatus ∧
      (tm.GetNextTask now name).2.tasks =
        tm.tasks.map (fun p => if p.1 = e.1 then (e.1, t1) else p) := by
  cases hl : lookup tm.healthStatus name with
  | none => simp [TaskManager.GetNextTask, hl] at h
  | some hr =>
    by_cases hlv : livenessWindow < now - hr.lastHeartbeat
    · simp [TaskManager.GetNextTask, hl, hlv] at h
    · by_cases hpr : hr.isProcessing = true
      · simp [TaskManager.GetNextTask, hl, hlv, hpr] at h
      · have hidle : hr.isProcessing = false := by
          cases hb : hr.isProcessing
          · rfl
          · exact absurd hb hpr
        cases hsel : (selectBest hr.agentName tm.tasks).1 with
        | none =>
          rw [getNextTask_none_eq tm now name hr hl hlv hidle hsel] at h
          simp at h
        | some e =>
          have hres := getNextTask_some_eq tm now name hr e hl hlv hidle hsel
          rw [hres] at h
          have h2 : some (assignTaskTo e.2 name) = some t1 := h
          injection h2 with h3
          subst h3
          obtain ⟨hmem, hpend, -⟩ :=
            selectBest_some hr.agentName tm.tasks e hsel
          refine ⟨?_, e, hmem, hpend, rfl, rfl, rfl, ?_, ?_⟩
          · intro hr2 hhr2
            injection hhr2 with h4
            rw [← h4]
            exact hidle
          · rw [hres]
          · rw [hres]

theorem getNextTask_assign_spec_witness :
    (∀ hr, lookup tmC1w.healthStatus "quiz" = some hr →
      hr.isProcessing = false) ∧
    ∃ e, e ∈ tmC1w.tasks ∧ e.2.status = TaskStatus.pending ∧
      assignTaskTo (mkQuizTask "q3" PriorityHigh) "quiz" =
        assignTaskTo e.2 "quiz" ∧
      (assignTaskTo (mkQuizTask "q3" PriorityHigh) "quiz").status =
        TaskStatus.assigned ∧
      (assignTaskTo (mkQuizTask "q3" PriorityHigh) "quiz").assignedTo =
        "quiz" ∧
      (tmC1w.GetNextTask 110 "quiz").2.healthStatus = tmC1w.healthStatus ∧
      (tmC1w.GetNextTask 110 "quiz").2.tasks =
        tmC1w.tasks.map (fun p =>
          if p.1 = e.1
          then (e.1, assignTaskTo (mkQuizTask "q3" PriorityHigh) "quiz")
          else p) :=
  getNextTask_assign_spec tmC1w 110 "quiz"
    (assignTaskTo (mkQuizTask "q3" PriorityHigh) "quiz") (by decide)

/-- C10: a `GetNextTask` call that returns none mutates nothing at all —
the post-state is the pre-state; and a call that returns a task leaves the
health registry and every other task entry untouched, rewriting exactly
the one selected entry (keys of the Go task map are unique). -/
theorem getNextTask_frame (tm : TaskManager) (now : Int) (name : String)
    (hnd : (tm.tasks.map Prod.fst).Nodup) :
    ((tm.GetNextTask now name).1 = none →
      (tm.GetNextTask now name).2 = tm) ∧
    (∀ t1, (tm.GetNextTask now name).1 = some t1 →
      (tm.GetNextTask now name).2.healthStatus = tm.healthStatus ∧
      ∃ l1 e l2, tm.tasks = l1 ++ e :: l2 ∧
        e.2.status = TaskStatus.pending ∧ t1 = assignTaskTo e.2 name ∧
        (tm.GetNextTask now name).2.tasks = l1 ++ (e.1, t1) :: l2) := by
  cases hl : lookup tm.healthStatus name with
  | none =>
    have hres : tm.GetNextTask now name = (none, tm) := by
      simp [TaskManager.GetNextTask, hl]
    rw [hres]
    exact ⟨fun _ => rfl, fun t1 h1 => by simp at h1⟩
  | some hr =>
    by_cases hlv : livenessWindow < now - hr.lastHeartbeat
    · have hres : tm.GetNextTask now name = (none, tm) := by
        simp [TaskManager.GetNextTask, hl, hlv]
      rw [hres]
      exact ⟨fun _ => rfl, fun t1 h1 => by simp at h1⟩
    · by_cases hpr : hr.isProcessing = true
      · have hres : tm.GetNextTask now name = (none, tm) := by
          simp [TaskManager.GetNextTask, hl, hlv, hpr]
        rw [hres]
        exact ⟨fun _ => rfl, fun t1 h1 => by simp at h1⟩
      · have hidle : hr.isProcessing = false := by
          cases hb : hr.isProcessing
          · rfl
          · exact absurd hb hpr
        cases hsel : (selectBest hr.agentName tm.tasks).1 with
        | none =>
          rw [getNextTask_none_eq tm now name hr hl hlv hidle hsel]
          exact ⟨fun _ => rfl, fun t1 h1 => by simp at h1⟩
        | some e =>
          have hres := getNextTask_some_eq tm now name hr e hl hlv hidle hsel
          rw [hres]
          obtain ⟨hmem, hpend, -⟩ :=
            selectBest_some hr.agentName tm.tasks e hsel
          obtain ⟨l1, l2, hdec⟩ := List.append_of_mem hmem
          have hnd2 := hnd
          rw [hdec, List.map_append, List.map_cons, List.nodup_append] at hnd2
          obtain ⟨hn1, hn2, hdisj⟩ := hnd2
          rw [List.nodup_cons] at hn2
          have hk1 : ∀ p, p ∈ l1 → p.1 ≠ e.1 := by
            intro p hp hpe
            have hin : p.1 ∈ e.1 :: l2.map Prod.fst := by
              rw [hpe]
              exact List.mem_cons_self _ _
            exact hdisj (List.mem_map.2 ⟨p, hp, rfl⟩) hin
          have hk2 : ∀ p, p ∈ l2 → p.1 ≠ e.1 := by
            intro p hp hpe
            exact hn2.1 (List.mem_map.2 ⟨p, hp, hpe⟩)
          constructor
          · intro h0
            simp at h0
          · intro t1 h1
            have h2 : some (assignTaskTo e.2 name) = some t1 := h1
            injection h2 with h3
            subst h3
            refine ⟨rfl, l1, e, l2, hdec, hpend, rfl, ?_⟩
            show tm.tasks.map
                (fun p => if p.1 = e.1 then (e.1, assignTaskTo e.2 name)
                          else p) =
              l1 ++ (e.1, assignTaskTo e.2 name) :: l2
            rw [hdec, List.map_append, List.map_cons, if_pos rfl,
              map_update_of_ne l1 e.1 _ hk1, map_update_of_ne l2 e.1 _ hk2]

theorem getNextTask_frame_witness :
    (tmC1w.GetNextTask 110 "quiz").2.healthStatus = tmC1w.healthStatus ∧
    ∃ l1 e l2, tmC1w.tasks = l1 ++ e :: l2 ∧
      e.2.status = TaskStatus.pending ∧
      assignTaskTo (mkQuizTask "q3" PriorityHigh) "quiz" =
        assignTaskTo e.2 "quiz" ∧
      (tmC1w.GetNextTask 110 "quiz").2.tasks =
        l1 ++ (e.1, assignTaskTo (mkQuizTask "q3" PriorityHigh) "quiz") :: l2 :=
  (getNextTask_frame tmC1w 110 "quiz" (by decide)).2
    (assignTaskTo (mkQuizTask "q3" PriorityHigh) "quiz") (by decide)

/-- C8: `UpdateTaskStatus` with an unknown task ID is a no-op that leaves
the whole store unchanged and never fails (the function is total); with a
known ID it overwrites exactly that task's status with the given value,
stamps `completedAt = now` exactly when the new status is Complete and
leaves `completedAt` untouched for every other status, leaving every other
entry and the health registry unchanged. -/
theorem updateTaskStatus_spec (tm : TaskManager) (now : Int) (id : String)
    (st : TaskStatus) :
    (lookup tm.tasks id = none → tm.UpdateTaskStatus now id st = tm) ∧
    (∀ t, lookup tm.tasks id = some t →
      lookup (tm.UpdateTaskStatus now id st).tasks id =
        some { t with
               status := st,
               completedAt := if st = TaskStatus.complete then some now
                              else t.completedAt } ∧
      (∀ j, j ≠ id → lookup (tm.UpdateTaskStatus now id st).tasks j =
        lookup tm.tasks j) ∧
      (tm.UpdateTaskStatus now id st).healthStatus = tm.healthStatus) := by
  constructor
  · intro hn
    simp [TaskManager.UpdateTaskStatus, hn]
  · intro t ht
    have hres : tm.UpdateTaskStatus now id st =
        { tm with
          tasks := mapInsert tm.tasks id
                     { t with
                       status := st,
                       completedAt := if st = TaskStatus.complete
                                      then some now else t.completedAt } } := by
      simp [TaskManager.UpdateTaskStatus, ht]
    refine ⟨?_, ?_, ?_⟩
    · rw [hres]
      show lookup (mapInsert tm.tasks id _) id = _
      rw [lookup_mapInsert]
      simp
    · intro j hj
      rw [hres]
      show lookup (mapInsert tm.tasks id _) j = _
      rw [lookup_mapInsert, if_neg hj]
    · rw [hres]

theorem updateTaskStatus_spec_witness :
    lookup (tmC8.UpdateTaskStatus 5 "t8" TaskStatus.complete).tasks "t8" =
      some { mkQuizTask "t8" PriorityLow with
             status := TaskStatus.complete,
             completedAt :=
               if TaskStatus.complete = TaskStatus.complete then some 5
               else (mkQuizTask "t8" PriorityLow).completedAt } ∧
    (∀ j, j ≠ "t8" →
      lookup (tmC8.UpdateTaskStatus 5 "t8" TaskStatus.complete).tasks j =
        lookup tmC8.tasks j) ∧
    (tmC8.UpdateTaskStatus 5 "t8" TaskStatus.complete).healthStatus =
      tmC8.healthStatus :=
  (updateTaskStatus_spec tmC8 5 "t8" TaskStatus.complete).2
    (mkQuizTask "t8" PriorityLow) (by decide)

/-- C4: `CheckScaling` returns false (and changes nothing) whenever
`now - lastScaleTime` is below the 5-minute cooldown; once the cooldown
has elapsed it returns true iff at least one of the four OR'd conditions
holds (CPU% > 80, memory% > 85, queue depth > 100, error rate > 0.05),
resets `lastScaleTime` to `now` exactly when it triggers, and therefore
every repeated call within the cooldown window after a trigger returns
false even if thresholds remain breached. -/
theorem checkScaling_spec (o : InfraAgents.OrchestratorInfrastructureAgent)
    (now : Int) :
    (now - o.lastScaleTime < InfraAgents.cooldownPeriod →
      InfraAgents.CheckScaling o now = (false, o)) ∧
    (InfraAgents.cooldownPeriod ≤ now - o.lastScaleTime →
      ((InfraAgents.CheckScaling o now).1 = true ↔
        InfraAgents.overloaded o.metrics) ∧
      ((InfraAgents.CheckScaling o now).1 = true →
        (InfraAgents.CheckScaling o now).2.lastScaleTime = now) ∧
      ((InfraAgents.CheckScaling o now).1 = false →
        InfraAgents.CheckScaling o now = (false, o))) ∧
    (∀ now2, (InfraAgents.CheckScaling o now).1 = true →
      now2 - now < InfraAgents.cooldownPeriod →
      (InfraAgents.CheckScaling (InfraAgents.CheckScaling o now).2 now2).1 =
        false) := by
  by_cases hc : now - o.lastScaleTime < InfraAgents.cooldownPeriod
  · refine ⟨fun _ => by simp [InfraAgents.CheckScaling, hc],
      fun h2 => absurd hc (not_lt.2 h2), ?_⟩
    intro now2 htrig hwin
    simp [InfraAgents.CheckScaling, hc] at htrig
  · by_cases hov : InfraAgents.overloaded o.metrics
    · have hres : InfraAgents.CheckScaling o now =
          (true, { o with lastScaleTime := now }) := by
        simp [InfraAgents.CheckScaling, hc, hov]
      refine ⟨fun h1 => absurd h1 hc, fun _ => ⟨?_, ?_, ?_⟩, ?_⟩
      · rw [hres]
        simp [hov]
      · intro _
        rw [hres]
      · intro hfalse
        rw [hres] at hfalse
        simp at hfalse
      · intro now2 _ hwin
        rw [hres]
        simp [InfraAgents.CheckScaling, hwin]
    · have hres : InfraAgents.CheckScaling o now = (false, o) := by
        simp [InfraAgents.CheckScaling, hc, hov]
      refine ⟨fun h1 => absurd h1 hc, fun _ => ⟨?_, ?_, fun _ => hres⟩, ?_⟩
      · rw [hres]
        simp [hov]
      · intro htr
        rw [hres] at htr
        simp at htr
      · intro now2 htr
        rw [hres] at htr
        simp at htr

theorem checkScaling_spec_witness :
    ((InfraAgents.CheckScaling oC4 400).1 = true ↔
      InfraAgents.overloaded oC4.metrics) ∧
    ((InfraAgents.CheckScaling oC4 400).1 = true →
      (InfraAgents.CheckScaling oC4 400).2.lastScaleTime = 400) ∧
    ((InfraAgents.CheckScaling oC4 400).1 = false →
      InfraAgents.CheckScaling oC4 400 = (false, oC4)) :=
  (checkScaling_spec oC4 400).2.1 (by decide)

theorem statusLE_refl (a : TaskStatus) : statusLE a a := Or.inl rfl

theorem statusLE_trans (a b c : TaskStatus) (h1 : statusLE a b)
    (h2 : statusLE b c) : statusLE a c := by
  rcases h1 with rfl | h1
  · exact h2
  · rcases h2 with rfl | h2
    · exact Or.inr h1
    · exact Or.inr (lt_trans h1 h2)

theorem getNextTask_keys (tm : TaskManager) (now : Int) (name : String) :
    ((tm.GetNextTask now name).2.tasks).map Prod.fst =
      tm.tasks.map Prod.fst := by
  cases hl : lookup tm.healthStatus name with
  | none => simp [TaskManager.GetNextTask, hl]
  | some hr =>
    by_cases hlv : livenessWindow < now - hr.lastHeartbeat
    · simp [TaskManager.GetNextTask, hl, hlv]
    · by_cases hpr : hr.isProcessing = true
      · simp [TaskManager.GetNextTask, hl, hlv, hpr]
      · have hidle : hr.isProcessing = false := by
          cases hb : hr.isProcessing
          · rfl
          · exact absurd hb hpr
        cases hsel : (selectBest hr.agentName tm.tasks).1 with
        | none => rw [getNextTask_none_eq tm now name hr hl hlv hidle hsel]
        | some e =>
          rw [getNextTask_some_eq tm now name hr e hl hlv hidle hsel]
          show (tm.tasks.map _).map Prod.fst = _
          rw [List.map_map]
          refine List.map_congr_left (fun p _ => ?_)
          by_cases hpk : p.1 = e.1
          · simp [hpk]
          · simp [hpk]

theorem applyStep_keysNodup (tm : TaskManager) (s : TMStep)
    (h : keysNodup tm) : keysNodup (applyStep tm s) := by
  cases s with
  | add now t =>
    show ((mapInsert tm.tasks _ _).map Prod.fst).Nodup
    exact mapInsert_keys_nodup _ _ _ h
  | get now name =>
    show (((tm.GetNextTask now name).2.tasks).map Prod.fst).Nodup
    rw [getNextTask_keys]
    exact h
  | upd now id st =>
    cases hl : lookup tm.tasks id with
    | none =>
      have hres : tm.UpdateTaskStatus now id st = tm := by
        simp [TaskManager.UpdateTaskStatus, hl]
      show keysNodup (tm.UpdateTaskStatus now id st)
      rw [hres]
      exact h
    | some t =>
      have hres : tm.UpdateTaskStatus now id st =
          { tm with
            tasks := mapInsert tm.tasks id
                       { t with
                         status := st,
                         completedAt := if st = TaskStatus.complete
                                        then some now
                                        else t.completedAt } } := by
        simp [TaskManager.UpdateTaskStatus, hl]
      show keysNodup (tm.UpdateTaskStatus now id st)
      rw [hres]
      exact mapInsert_keys_nodup _ _ _ h

theorem applyStep_mono (tm : TaskManager) (s : TMStep) (hnd : keysNodup tm)
    (hg : goodStep tm s) (id : String) (t : Task)
    (hb : lookup tm.tasks id = some t) :
    ∃ t1, lookup (applyStep tm s).tasks id = some t1 ∧
      statusLE t.status t1.status := by
  cases s with
  | add now t0 =>
    have hfresh : lookup tm.tasks t0.id = none := hg
    have hne : id ≠ t0.id := by
      intro h
      rw [h, hfresh] at hb
      exact Option.noConfusion hb
    refine ⟨t, ?_, statusLE_refl _⟩
    show lookup (mapInsert tm.tasks _ _) id = some t
    rw [lookup_mapInsert, if_neg hne]
    exact hb
  | upd now id0 st =>
    cases hl : lookup tm.tasks id0 with
    | none =>
      have hres : tm.UpdateTaskStatus now id0 st = tm := by
        simp [TaskManager.UpdateTaskStatus, hl]
      refine ⟨t, ?_, statusLE_refl _⟩
      show lookup (tm.UpdateTaskStatus now id0 st).tasks id = some t
      rw [hres]
      exact hb
    | some t0 =>
      have hres : tm.UpdateTaskStatus now id0 st =
          { tm with
            tasks := mapInsert tm.tasks id0
                       { t0 with
                         status := st,
                         completedAt := if st = TaskStatus.complete
                                        then some now
                                        else t0.completedAt } } := by
        simp [TaskManager.UpdateTaskStatus, hl]
      by_cases hid : id = id0
      · subst hid
        refine ⟨{ t0 with
                  status := st,
                  completedAt := if st = TaskStatus.complete then some now
                                 else t0.completedAt }, ?_, ?_⟩
        · show lookup (tm.UpdateTaskStatus now id st).tasks id = some _
          rw [hres]
          show lookup (mapInsert tm.tasks id _) id = some _
          rw [lookup_mapInsert, if_pos rfl]
        · show statusLE t.status st
          exact hg t hb
      · refine ⟨t, ?_, statusLE_refl _⟩
        show lookup (tm.UpdateTaskStatus now id0 st).tasks id = some t
        rw [hres]
        show lookup (mapInsert tm.tasks id0 _) id = some t
        rw [lookup_mapInsert, if_neg hid]
        exact hb
  | get now name =>
    cases hl : lookup tm.healthStatus name with
    | none =>
      have hres : tm.GetNextTask now name = (none, tm) := by
        simp [TaskManager.GetNextTask, hl]
      refine ⟨t, ?_, statusLE_refl _⟩
      show lookup (tm.GetNextTask now name).2.tasks id = some t
      rw [hres]
      exact hb
    | some hr =>
      by_cases hlv : livenessWindow < now - hr.lastHeartbeat
      · have hres : tm.GetNextTask now name = (none, tm) := by
          simp [TaskManager.GetNextTask, hl, hlv]
        refine ⟨t, ?_, statusLE_refl _⟩
        show lookup (tm.GetNextTask now name).2.tasks id = some t
        rw [hres]
        exact hb
      · by_cases hpr : hr.isProcessing = true
        · have hres : tm.GetNextTask now name = (none, tm) := by
            simp [TaskManager.GetNextTask, hl, hlv, hpr]
          refine ⟨t, ?_, statusLE_refl _⟩
          show lookup (tm.GetNextTask now name).2.tasks id = some t
          rw [hres]
          exact hb
        · have hidle : hr.isProcessing = false := by
            cases hb2 : hr.isProcessing
            · rfl
            · exact absurd hb2 hpr
          cases hsel : (selectBest hr.agentName tm.tasks).1 with
          | none =>
            have hres := getNextTask_none_eq tm now name hr hl hlv hidle hsel
            refine ⟨t, ?_, statusLE_refl _⟩
            show lookup (tm.GetNextTask now name).2.tasks id = some t
            rw [hres]
            exact hb
          | some e =>
            have hres := getNextTask_some_eq tm now name hr e hl hlv hidle hsel
            obtain ⟨hmem, hpend, -⟩ :=
              selectBest_some hr.agentName tm.tasks e hsel
            by_cases hid : id = e.1
            · subst hid
              have hte : lookup tm.tasks e.1 = some e.2 :=
                lookup_of_mem_nodup tm.tasks e hmem hnd
              have ht : t = e.2 := by
                rw [hte] at hb
                injection hb with h3
                exact h3.symm
              refine ⟨assignTaskTo e.2 name, ?_, ?_⟩
              · show lookup (tm.GetNextTask now name).2.tasks e.1 =
                  some (assignTaskTo e.2 name)
                rw [hres]
                show lookup (tm.tasks.map _) e.1 = some (assignTaskTo e.2 name)
                rw [lookup_map_update, if_pos rfl, hte]
                rfl
              · rw [ht, hpend]
                refine Or.inr ?_
                show statusRank TaskStatus.pending <
                  statusRank TaskStatus.assigned
                decide
            · refine ⟨t, ?_, statusLE_refl _⟩
              show lookup (tm.GetNextTask now name).2.tasks id = some t
              rw [hres]
              show lookup (tm.tasks.map _) id = some t
              rw [lookup_map_update, if_neg hid]
              exact hb

/-- C5 (amended): the store itself does not enforce the one-directional
lifecycle (see the counterexample: `UpdateTaskStatus` overwrites the
status unconditionally, so Complete → Pending is reachable); the invariant
holds exactly under the callers' discipline the spec assumes: along any
sequence of calls in which every `AddTask` uses a fresh ID and every
`UpdateTaskStatus` argument is the task's current status or one strictly
later in `Pending → Assigned → Running → {Complete | Failed}`, no task
ever moves backward or leaves a terminal state (`GetNextTask` itself only
ever performs Pending → Assigned). -/
theorem statusMonotone_of_goodSteps (l : List TMStep) :
    ∀ tm : TaskManager, keysNodup tm → goodSteps tm l →
      ∀ id t t1, lookup tm.tasks id = some t →
        lookup (runSteps tm l).tasks id = some t1 →
        statusLE t.status t1.status := by
  induction l with
  | nil =>
    intro tm _ _ id t t1 hb ha
    have ha2 : lookup tm.tasks id = some t1 := ha
    rw [hb] at ha2
    injection ha2 with h3
    rw [← h3]
    exact statusLE_refl _
  | cons s l ih =>
    intro tm hnd hg id t t1 hb ha
    obtain ⟨hgs, hgl⟩ := hg
    obtain ⟨tmid, hmid, hle⟩ := applyStep_mono tm s hnd hgs id t hb
    have ha2 : lookup (runSteps (applyStep tm s) l).tasks id = some t1 := ha
    exact statusLE_trans _ _ _ hle
      (ih (applyStep tm s) (applyStep_keysNodup tm s hnd) hgl id tmid t1
        hmid ha2)

theorem statusMonotone_witness :
    statusLE (mkQuizTask "w5" PriorityLow).status
      { mkQuizTask "w5" PriorityLow with status := TaskStatus.running }.status :=
  statusMonotone_of_goodSteps [TMStep.upd 1 "w5" TaskStatus.running] tmC5w
    (by decide)
    ⟨fun t ht => by
      have h2 : some (mkQuizTask "w5" PriorityLow) = some t := ht
      injection h2 with h3
      rw [← h3]
      decide, trivial⟩
    "w5" (mkQuizTask "w5" PriorityLow)
    { mkQuizTask "w5" PriorityLow with status := TaskStatus.running }
    (by decide) (by decide)

/-- C5 fails as stated: the store does not enforce one-directional status
transitions — after `AddTask`, `UpdateTaskStatus(Complete)`,
`UpdateTaskStatus(Pending)` the task has left the terminal state Complete
and moved backward to Pending, through the public API alone. -/
theorem updateTaskStatus_regression_counterexample :
    (lookup tmC5b.tasks "c5").map Task.status = some TaskStatus.complete ∧
    (lookup tmC5c.tasks "c5").map Task.status = some TaskStatus.pending ∧
    ¬ statusLE TaskStatus.complete TaskStatus.pending := by
  refine ⟨by decide, by decide, by decide⟩

/-- C6 (amended): when `CheckScaling` fires, `ScaleSystem` appends to every
template with at least one registered instance a clone of that template's
first instance whose `Agent` record — the name included — is identical to
the template's: `Agent.Clone` is a field-by-field copy and no derived
unique name exists, contrary to the claim (the clone does share the
template's role and type). -/
theorem scaleSystem_clone_identical
    (o : InfraAgents.OrchestratorInfrastructureAgent) (now : Int)
    (hcool : InfraAgents.cooldownPeriod ≤ now - o.lastScaleTime)
    (hov : InfraAgents.overloaded o.metrics) :
    (∀ a : InfraAgents.Agent, a.Clone = a) ∧
    (InfraAgents.ScaleSystem o now).instances =
      o.instances.map (InfraAgents.scaleTemplate now) ∧
    ∀ n base rest, (n, base :: rest) ∈ o.instances →
      (n, base :: rest ++
        [{ agent := base.agent, lastScaled := now,
           metrics := InfraAgents.AgentMetrics.init base.agent.name }]) ∈
        (InfraAgents.ScaleSystem o now).instances := by
  have hcs : InfraAgents.CheckScaling o now =
      (true, { o with lastScaleTime := now }) := by
    simp [InfraAgents.CheckScaling, not_lt.2 hcool, hov]
  have hres : InfraAgents.ScaleSystem o now =
      { o with
        lastScaleTime := now,
        instances := o.instances.map (InfraAgents.scaleTemplate now) } := by
    simp [InfraAgents.ScaleSystem, hcs]
  refine ⟨fun a => rfl, by rw [hres], ?_⟩
  intro n base rest hmem
  rw [hres]
  exact List.mem_map.2 ⟨(n, base :: rest), hmem, rfl⟩

theorem scaleSystem_clone_identical_witness :
    (∀ a : InfraAgents.Agent, a.Clone = a) ∧
    (InfraAgents.ScaleSystem oC6 400).instances =
      oC6.instances.map (InfraAgents.scaleTemplate 400) ∧
    ∀ n base rest, (n, base :: rest) ∈ oC6.instances →
      (n, base :: rest ++
        [{ agent := base.agent, lastScaled := 400,
           metrics := InfraAgents.AgentMetrics.init base.agent.name }]) ∈
        (InfraAgents.ScaleSystem oC6 400).instances :=
  scaleSystem_clone_identical oC6 400 (by decide) (by decide)

/-- C6 fails as stated: after a triggered `ScaleSystem` on the template
"quiz" (one instance whose agent is named "quiz"), the registry holds two
instances both named "quiz" — the clone's name is not distinct from the
existing instance's name. -/
theorem scaleSystem_same_name_counterexample :
    (InfraAgents.ScaleSystem oC6 400).instances.map
        (fun p => (p.1, p.2.map (fun i => i.agent.name))) =
      [("quiz", ["quiz", "quiz"])] := by
  decide

theorem foldl_add_sum {α β : Type} [AddCommMonoid β] (f : α → β)
    (l : List α) : ∀ s : β, l.foldl (fun a x => a + f x) s = s + (l.map f).sum := by
  induction l with
  | nil => intro s; simp
  | cons x l ih =>
    intro s
    rw [List.foldl_cons, ih, List.map_cons, List.sum_cons, add_assoc]

theorem foldl_add_mod_eq_sum {α : Type} (f : α → ℕ) (M : ℕ) (l : List α) :
    ∀ s : ℕ, s + (l.map f).sum < M →
      l.foldl (fun a x => (a + f x) % M) s = s + (l.map f).sum := by
  induction l with
  | nil =>
    intro s _
    simp
  | cons x l ih =>
    intro s hlt
    rw [List.map_cons, List.sum_cons] at hlt
    rw [List.foldl_cons]
    have h2 : (s + f x) % M = s + f x := Nat.mod_eq_of_lt (by omega)
    rw [h2, ih (s + f x) (by omega), List.map_cons, List.sum_cons]
    omega

/-- C9 (amended): on each tick with a non-empty tracked population the
snapshot's CPU and error-rate fields equal the arithmetic mean of the
refreshed per-worker figures and the memory field equals the mean of the
per-worker byte counts (when the `uint64` accumulator does not wrap), but
the queue-depth field `TaskCount` is the SUM of the per-worker queue
depths, not the per-worker average the claim states; with an empty
population the aggregation is skipped and the previous snapshot is left
unchanged, so no division by zero occurs. -/
theorem collectMetrics_aggregate_spec
    (o : InfraAgents.ObserverInfrastructureAgent) (sampleCPU : String → ℚ)
    (sampleMem : String → ℕ) (now : Int) :
    (o.metricsMap = [] →
      (InfraAgents.collectMetricsTick o sampleCPU sampleMem now).systemMetrics =
        o.systemMetrics) ∧
    (o.metricsMap ≠ [] →
      (InfraAgents.collectMetricsTick o sampleCPU sampleMem now).metricsMap =
        o.metricsMap.map (InfraAgents.refreshEntry sampleCPU sampleMem now) ∧
      (InfraAgents.collectMetricsTick o sampleCPU sampleMem
          now).systemMetrics.cpuUsage =
        InfraAgents.ratMean
          ((o.metricsMap.map (InfraAgents.refreshEntry sampleCPU sampleMem
            now)).map (fun p => p.2.cpu)) ∧
      (InfraAgents.collectMetricsTick o sampleCPU sampleMem
          now).systemMetrics.errorRate =
        InfraAgents.ratMean
          ((o.metricsMap.map (InfraAgents.refreshEntry sampleCPU sampleMem
            now)).map (fun p => p.2.errorRate)) ∧
      (InfraAgents.collectMetricsTick o sampleCPU sampleMem
          now).systemMetrics.taskCount =
        ((o.metricsMap.map (InfraAgents.refreshEntry sampleCPU sampleMem
          now)).map (fun p => p.2.tasksInQueue)).sum ∧
      (((o.metricsMap.map (InfraAgents.refreshEntry sampleCPU sampleMem
          now)).map (fun p => p.2.memory)).sum < 2 ^ 64 →
        (InfraAgents.collectMetricsTick o sampleCPU sampleMem
            now).systemMetrics.memoryUsage =
          InfraAgents.ratMean
            ((o.metricsMap.map (InfraAgents.refreshEntry sampleCPU sampleMem
              now)).map (fun p => (p.2.memory : ℚ))))) := by
  constructor
  · intro he
    simp [InfraAgents.collectMetricsTick, he]
  · intro hne
    set R := o.metricsMap.map (InfraAgents.refreshEntry sampleCPU sampleMem now)
      with hR
    have hpos : 0 < R.length := by
      rw [hR, List.length_map]
      exact List.length_pos.2 hne
    have hres : InfraAgents.collectMetricsTick o sampleCPU sampleMem now =
        { o with
          metricsMap := R,
          systemMetrics :=
            { cpuUsage := (R.foldl (fun s p => s + p.2.cpu) 0) /
                ((R.length : ℕ) : ℚ),
              memoryUsage :=
                ((R.foldl (fun s p => (s + p.2.memory) % 2 ^ 64) 0 : ℕ) : ℚ) /
                  ((R.length : ℕ) : ℚ),
              taskCount := R.foldl (fun s p => s + p.2.tasksInQueue) 0,
              errorRate := (R.foldl (fun s p => s + p.2.errorRate) 0) /
                ((R.length : ℕ) : ℚ) } } := by
      simp only [InfraAgents.collectMetricsTick]
      rw [if_pos hpos]
    refine ⟨by rw [hres], ?_, ?_, ?_, ?_⟩
    · rw [hres]
      show (R.foldl (fun s p => s + p.2.cpu) 0) / ((R.length : ℕ) : ℚ) =
        InfraAgents.ratMean (R.map (fun p => p.2.cpu))
      unfold InfraAgents.ratMean
      rw [foldl_add_sum (fun p : String × InfraAgents.AgentMetrics => p.2.cpu)
        R 0, zero_add,
        List.length_map R (fun p : String × InfraAgents.AgentMetrics => p.2.cpu)]
    · rw [hres]
      show (R.foldl (fun s p => s + p.2.errorRate) 0) / ((R.length : ℕ) : ℚ) =
        InfraAgents.ratMean (R.map (fun p => p.2.errorRate))
      unfold InfraAgents.ratMean
      rw [foldl_add_sum
        (fun p : String × InfraAgents.AgentMetrics => p.2.errorRate) R 0,
        zero_add,
        List.length_map R
          (fun p : String × InfraAgents.AgentMetrics => p.2.errorRate)]
    · rw [hres]
      show R.foldl (fun s p => s + p.2.tasksInQueue) 0 =
        (R.map (fun p => p.2.tasksInQueue)).sum
      rw [foldl_add_sum
        (fun p : String × InfraAgents.AgentMetrics => p.2.tasksInQueue) R 0,
        zero_add]
    · intro hmem
      rw [hres]
      show ((R.foldl (fun s p => (s + p.2.memory) % 2 ^ 64) 0 : ℕ) : ℚ) /
          ((R.length : ℕ) : ℚ) =
        InfraAgents.ratMean (R.map (fun p => (p.2.memory : ℚ)))
      unfold InfraAgents.ratMean
      rw [foldl_add_mod_eq_sum
        (fun p : String × InfraAgents.AgentMetrics => p.2.memory) (2 ^ 64) R 0
        (by simpa using hmem)]
      rw [zero_add, Nat.cast_list_sum, List.map_map,
        List.length_map R
          (fun p : String × InfraAgents.AgentMetrics => (p.2.memory : ℚ))]
      have hcomp : (Nat.cast ∘
          fun p : String × InfraAgents.AgentMetrics => p.2.memory) =
          (fun p : String × InfraAgents.AgentMetrics => (p.2.memory : ℚ)) :=
        rfl
      rw [hcomp]

/-- C9 fails as stated for the queue-depth field: with two tracked workers
of queue depths 1 and 3 the snapshot's `TaskCount` is 4 — the total — not
the per-worker average 2 the claim states. -/
theorem collectMetrics_sum_counterexample :
    (InfraAgents.collectMetricsTick oC9 zeroCPU zeroMem
        5).systemMetrics.taskCount = 4 ∧
      (4 : Int) ≠ (1 + 3) / 2 := by
  refine ⟨by decide, by decide⟩

theorem collectMetrics_aggregate_witness :
    (InfraAgents.collectMetricsTick oC9 zeroCPU zeroMem 5).metricsMap =
      oC9.metricsMap.map (InfraAgents.refreshEntry zeroCPU zeroMem 5) ∧
    (InfraAgents.collectMetricsTick oC9 zeroCPU zeroMem
        5).systemMetrics.cpuUsage =
      InfraAgents.ratMean
        ((oC9.metricsMap.map (InfraAgents.refreshEntry zeroCPU zeroMem
          5)).map (fun p => p.2.cpu)) ∧
    (InfraAgents.collectMetricsTick oC9 zeroCPU zeroMem
        5).systemMetrics.errorRate =
      InfraAgents.ratMean
        ((oC9.metricsMap.map (InfraAgents.refreshEntry zeroCPU zeroMem
          5)).map (fun p => p.2.errorRate)) ∧
    (InfraAgents.collectMetricsTick oC9 zeroCPU zeroMem
        5).systemMetrics.taskCount =
      ((oC9.metricsMap.map (InfraAgents.refreshEntry zeroCPU zeroMem
        5)).map (fun p => p.2.tasksInQueue)).sum ∧
    (((oC9.metricsMap.map (InfraAgents.refreshEntry zeroCPU zeroMem
        5)).map (fun p => p.2.memory)).sum < 2 ^ 64 →
      (InfraAgents.collectMetricsTick oC9 zeroCPU zeroMem
          5).systemMetrics.memoryUsage =
        InfraAgents.ratMean
          ((oC9.metricsMap.map (InfraAgents.refreshEntry zeroCPU zeroMem
            5)).map (fun p => (p.2.memory : ℚ)))) :=
  (collectMetrics_aggregate_spec oC9 zeroCPU zeroMem 5).2 (by decide)

theorem mapInsert_fresh {α : Type} (m : List (String × α)) (k : String)
    (v : α) (h : ∀ p, p ∈ m → p.1 ≠ k) : mapInsert m k v = m ++ [(k, v)] := by
  have hany : m.any (fun e => e.1 = k) = false := by
    rw [List.any_eq_false]
    intro p hp
    simpa using h p hp
  unfold mapInsert
  rw [if_neg (by simp [hany])]

theorem scaleOut_foldl (tm : TaskManager) (now : Int) :
    ∀ (l acc : List (String × OrchInfra.CognitiveAgent)),
      (∀ p, p ∈ l → ∀ q, q ∈ acc → OrchInfra.cloneName now p ≠ q.1) →
      (l.map (OrchInfra.cloneName now)).Nodup →
      l.foldl (OrchInfra.scaleOutStep tm now) acc =
        acc ++ (l.filter (fun p => OrchInfra.cloneGateB tm p.2)).map
          (fun p => (OrchInfra.cloneName now p, p.2.Clone now)) := by
  intro l
  induction l with
  | nil =>
    intro acc _ _
    simp
  | cons p l ih =>
    intro acc hfresh hnd
    rw [List.map_cons, List.nodup_cons] at hnd
    rw [List.foldl_cons]
    by_cases hg : OrchInfra.cloneGateB tm p.2 = true
    · have hstep : OrchInfra.scaleOutStep tm now acc p =
          acc ++ [(OrchInfra.cloneName now p, p.2.Clone now)] := by
        unfold OrchInfra.cloneGateB at hg
        unfold OrchInfra.scaleOutStep
        cases hh : tm.GetAgentHealth p.2.name with
        | none =>
          rw [hh] at hg
          simp at hg
        | some h0 =>
          rw [hh] at hg
          simp only [Bool.and_eq_true, decide_eq_true_eq] at hg
          simp only [hh]
          rw [if_pos ⟨hg.1, hg.2⟩]
          exact mapInsert_fresh acc _ _
            (fun q hq =>
              (hfresh p (List.mem_cons_self _ _) q hq).symm)
      rw [hstep]
      rw [ih (acc ++ [(OrchInfra.cloneName now p, p.2.Clone now)]) ?_ hnd.2]
      · rw [List.filter_cons_of_pos (by simpa using hg), List.map_cons,
          List.append_assoc, List.singleton_append]
      · intro q hq r hr
        rcases List.mem_append.1 hr with hr | hr
        · exact hfresh q (List.mem_cons_of_mem _ hq) r hr
        · have hr2 : r = (OrchInfra.cloneName now p, p.2.Clone now) := by
            simpa using hr
          rw [hr2]
          intro hEq
          have hEq2 : OrchInfra.cloneName now q = OrchInfra.cloneName now p :=
            hEq
          exact hnd.1 (hEq2 ▸ List.mem_map.2 ⟨q, hq, rfl⟩)
    · have hg2 : OrchInfra.cloneGateB tm p.2 = false := Bool.eq_false_iff.2 hg
      have hstep : OrchInfra.scaleOutStep tm now acc p = acc := by
        unfold OrchInfra.cloneGateB at hg2
        unfold OrchInfra.scaleOutStep
        cases hh : tm.GetAgentHealth p.2.name with
        | none => simp only [hh]
        | some h0 =>
          rw [hh] at hg2
          simp only [Bool.and_eq_false_iff] at hg2
          simp only [hh]
          rw [if_neg ?_]
          intro hcond
          rcases hg2 with hg2 | hg2
          · rw [hcond.1] at hg2
            simp at hg2
          · rw [decide_eq_false_iff_not] at hg2
            exact hg2 hcond.2
      rw [hstep,
        ih acc (fun q hq => hfresh q (List.mem_cons_of_mem _ hq)) hnd.2,
        List.filter_cons_of_neg (by simp [hg2])]

/-- C7 (amended): a triggered `ScaleSystem` clones and registers a new
agent exactly for those registered agents whose health record exists, is
marked processing, and has `processingTime` strictly above the hard-coded
5-second threshold; the heartbeat age — liveness — is never consulted (see
the counterexample), and an agent none of whose records pass that gate
gains no new instance.  Clone names are the spec-modelled
name-plus-timestamp, assumed fresh and pairwise distinct. -/
theorem scaleSystem_gate_amended
    (o : OrchInfra.OrchestratorInfrastructureAgent) (now : Int)
    (hcool : OrchInfra.SCALE_COOLDOWN ≤ now - o.lastScaleTime)
    (hns : OrchInfra.needsScaling o.observerMetrics)
    (hfresh : ∀ p, p ∈ o.agents → ∀ q, q ∈ o.agents →
      OrchInfra.cloneName now p ≠ q.1)
    (hnd : (o.agents.map (OrchInfra.cloneName now)).Nodup) :
    (OrchInfra.ScaleSystem o now).agents =
      o.agents ++
        (o.agents.filter
          (fun p => OrchInfra.cloneGateB o.taskManager p.2)).map
          (fun p => (OrchInfra.cloneName now p, p.2.Clone now)) ∧
    ∀ p, p ∈ o.agents → OrchInfra.cloneGateB o.taskManager p.2 = false →
      lookup (OrchInfra.ScaleSystem o now).agents
        (OrchInfra.cloneName now p) = none := by
  have hso : (OrchInfra.scaleOut o now).agents =
      o.agents ++
        (o.agents.filter
          (fun p => OrchInfra.cloneGateB o.taskManager p.2)).map
          (fun p => (OrchInfra.cloneName now p, p.2.Clone now)) := by
    show o.agents.foldl (OrchInfra.scaleOutStep o.taskManager now) o.agents = _
    exact scaleOut_foldl o.taskManager now o.agents o.agents hfresh hnd
  have hres : OrchInfra.ScaleSystem o now =
      { OrchInfra.scaleOut o now with lastScaleTime := now } := by
    unfold OrchInfra.ScaleSystem
    rw [if_neg (not_lt.2 hcool), if_pos hns]
  constructor
  · rw [hres]
    exact hso
  · intro p hp hgate
    rw [hres]
    show lookup (OrchInfra.scaleOut o now).agents
      (OrchInfra.cloneName now p) = none
    have h1 : lookup o.agents (OrchInfra.cloneName now p) = none := by
      apply lookup_none_of_not_any
      rw [List.any_eq_false]
      intro q hq
      simp only [decide_eq_true_eq]
      exact fun hEq => hfresh p hp q hq hEq.symm
    have h2 : lookup
        ((o.agents.filter
          (fun p => OrchInfra.cloneGateB o.taskManager p.2)).map
          (fun p => (OrchInfra.cloneName now p, p.2.Clone now)))
        (OrchInfra.cloneName now p) = none := by
      apply lookup_none_of_not_any
      rw [List.any_eq_false]
      intro r hr
      rcases List.mem_map.1 hr with ⟨q, hqf, hqr⟩
      rcases List.mem_filter.1 hqf with ⟨hql, hqg⟩
      simp only [decide_eq_true_eq]
      rw [← hqr]
      intro hqp
      have hqp2 : OrchInfra.cloneName now q = OrchInfra.cloneName now p := hqp
      have hpq : q = p := List.inj_on_of_nodup_map hnd hql hp hqp2
      rw [hpq] at hqg
      rw [hqg] at hgate
      exact Bool.noConfusion hgate
    rw [hso, lookup_append, h1, h2]

theorem scaleSystem_gate_amended_witness :
    (OrchInfra.ScaleSystem oC7w 1000).agents =
      oC7w.agents ++
        (oC7w.agents.filter
          (fun p => OrchInfra.cloneGateB oC7w.taskManager p.2)).map
          (fun p => (OrchInfra.cloneName 1000 p, p.2.Clone 1000)) ∧
    ∀ p, p ∈ oC7w.agents →
      OrchInfra.cloneGateB oC7w.taskManager p.2 = false →
      lookup (OrchInfra.ScaleSystem oC7w 1000).agents
        (OrchInfra.cloneName 1000 p) = none :=
  scaleSystem_gate_amended oC7w 1000 (by decide) (by decide) (by decide)
    (by decide)

/-- C7 fails as stated: `scaleOut` never consults liveness — at instant
100000 the only "quiz" worker record has heartbeat age 100000 seconds
(far beyond the 30-second window, so the template has no live instance),
yet because it is marked processing with a 10-second estimate a clone
"quiz-100000" is registered by `ScaleSystem`. -/
theorem scaleOut_no_liveness_counterexample :
    (OrchInfra.ScaleSystem oC7 100000).agents.map Prod.fst =
      ["quiz", "quiz-100000"] ∧
    livenessWindow < 100000 - (busyHealth "quiz" 0 10).lastHeartbeat := by
  refine ⟨by decide, by decide⟩
